import Mathlib

/-!
Verification development for `bike_scraper.py` (bike_finder_uk).

The Python module is shallowly embedded below.  Conventions of the embedding:

* Python strings are Lean `String`s; Python slicing / iteration is over code
  points, which matches Lean's `List Char` view, so `title[11:]` is embedded
  as `String.mk (title.toList.drop 11)`.
* `str.lower()` is `pyLower` and `str.strip()` is `pyStrip` (code-point
  maps, identical to CPython on the ASCII text this program handles).
* The Python `in` operator on strings (substring test) is `strContains`.
* `difflib.SequenceMatcher(None, a, b).ratio()` is embedded by `ratio`:
  with `isjunk = None` and the second sequence shorter than 200 characters
  (every configured known term is), difflib has no junk elements, so
  `ratio = 2*M/(|a|+|b|)` where `M` is the total size of the matching blocks
  produced by the longest-matching-block recursion (ties broken by earliest
  start in `a`, then earliest start in `b`).  `bestMatch` and `matchTotal`
  implement exactly that recursion; `matchTotal` carries a fuel argument
  (each recursive call strictly decreases `|a| + |b|`, so fuel
  `|a| + |b| + 1` is never exhausted).  Python's float arithmetic is
  embedded as exact fraction arithmetic: a ratio is a `Frac` (a pair of
  naturals), compared by cross-multiplication; `fracLt_iff` below relates
  this to the rational order.
* Python sets of strings are `Finset String`; a run's match accumulator list
  is threaded explicitly instead of the module-level mutable lists.
* `requests` fetching is an external collaborator; where a claim is about
  fetch failures it is embedded as an `Except`-valued thunk
  (`res.raise_for_status()` raising is `.error`).
-/

namespace BikeScraper

/-! ### Configuration constants (`CONFIG` section of the source) -/

def SEARCH_KEYWORDS : List String := ["bike"]

def KNOWN_BIKES : List String := ["Trek", "Carrera", "Specialised"]

/-- A nonnegative fraction `num / den`.  Similarity ratios and thresholds
are values of this type; they are compared exactly (by cross-multiplication)
rather than through Python's float rounding. -/
structure Frac where
  num : Nat
  den : Nat
deriving DecidableEq

/-- Strict order on fractions, by cross-multiplication. -/
def fracLt (x y : Frac) : Bool :=
  decide (x.num * y.den < y.num * x.den)

/-- Non-strict order on fractions, by cross-multiplication. -/
def fracLe (x y : Frac) : Bool :=
  decide (x.num * y.den ≤ y.num * x.den)

/-- `EBAY_RATIO = 0.2` in the source. -/
def EBAY_CUTOFF : Frac := ⟨1, 5⟩

/-- `GUMTREE_RATIO = 0.05` in the source. -/
def GUMTREE_CUTOFF : Frac := ⟨1, 20⟩

/-! ### String helpers -/

/-- Python's `needle in haystack` substring test. -/
def strContains (needle haystack : String) : Bool :=
  decide (needle.toList <:+: haystack.toList)

/-- Python's `s[n:]` slice (drop the first `n` code points). -/
def pyDrop (s : String) (n : Nat) : String :=
  String.mk (s.toList.drop n)

/-- Python's `str.lower()` (code-point-wise lowering; identical to CPython
on the ASCII text this program handles). -/
def pyLower (s : String) : String :=
  String.mk (s.toList.map Char.toLower)

/-- Python's whitespace set for `str.strip()` (the ASCII part). -/
def pyIsSpace (c : Char) : Bool :=
  c == ' ' || c == '\t' || c == '\n' || c == '\r' || c == '\x0b' || c == '\x0c'

/-- Python's `str.strip()`: remove leading and trailing whitespace. -/
def pyStrip (s : String) : String :=
  String.mk ((((s.toList.dropWhile pyIsSpace).reverse.dropWhile pyIsSpace).reverse))

/-! ### difflib.SequenceMatcher model -/

/-- Length of the common run of equal characters at the heads of `a`, `b`. -/
def runLen : List Char → List Char → Nat
  | a :: as, b :: bs => if a = b then runLen as bs + 1 else 0
  | _, _ => 0

/-- `find_longest_match` over whole sequences, no junk: the triple
`(i, j, k)` with maximal `k` such that `a[i:i+k] = b[j:j+k]`, ties broken by
smallest `i`, then smallest `j` (the scan below visits candidates in
lexicographic `(i, j)` order and only replaces on strictly larger `k`). -/
def bestMatch (a b : List Char) : Nat × Nat × Nat :=
  (List.range a.length).foldl (fun best i =>
    (List.range b.length).foldl (fun best j =>
      let k := runLen (a.drop i) (b.drop j)
      if best.2.2 < k then (i, j, k) else best) best) (0, 0, 0)

/-- Total size of all matching blocks (`get_matching_blocks` recursion):
take the longest match, recurse on the pieces to its left and right.  Each
recursive call strictly decreases `|a| + |b|`, so the fuel is only a
termination device. -/
def matchTotal : Nat → List Char → List Char → Nat
  | 0, _, _ => 0
  | fuel + 1, a, b =>
    let m := bestMatch a b
    if m.2.2 = 0 then 0
    else
      matchTotal fuel (a.take m.1) (b.take m.2.1) + m.2.2 +
        matchTotal fuel (a.drop (m.1 + m.2.2)) (b.drop (m.2.1 + m.2.2))

/-- `difflib.SequenceMatcher(None, a, b).ratio()`:
`2*M / (len(a) + len(b))`, and `1` when both are empty
(difflib's `_calculate_ratio`). -/
def ratio (a b : String) : Frac :=
  let la := a.toList.length
  let lb := b.toList.length
  if la + lb = 0 then ⟨1, 1⟩
  else ⟨2 * matchTotal (la + lb + 1) a.toList b.toList, la + lb⟩

/-! ### Shared matching logic -/

/-- `is_match`, with the two cutoff constants abstracted so that the
threshold-monotonicity claim can be stated; `is_match` below instantiates
them at the configured values.  Faithful to the source: the known-terms
loop returns true on the first term whose ratio strictly exceeds the
threshold selected by `website`; the keyword path runs only for
`website == "gumtree"`. -/
def is_matchWith (ebayCut gumtreeCut : Frac) (title : String)
    (website : Option String) : Bool :=
  let t := pyLower title
  if KNOWN_BIKES.any (fun known =>
      let r := ratio t (pyLower known)
      let cut := if website = some "ebay" then ebayCut else gumtreeCut
      fracLt cut r) then
    true
  else if website = some "gumtree" then
    SEARCH_KEYWORDS.any (fun keyword => strContains (pyLower keyword) t)
  else
    false

/-- `is_match(title, website)` of the source. -/
def is_match (title : String) (website : Option String) : Bool :=
  is_matchWith EBAY_CUTOFF GUMTREE_CUTOFF title website

/-- `is_nearby(location)`.  The source reads the module constant
`LOCATION_MODE`; it is passed here as the `mode` argument (its two intended
values are `"anywhere"` and `"edinburgh"`; any value other than
`"anywhere"` takes the restricted branch, whose target-area constant is the
literal `"edinburgh"`). -/
def is_nearby (mode location : String) : Bool :=
  if mode = "anywhere" then true
  else strContains "edinburgh" (pyLower location)

/-- `normalize_ebay_url(link)`.  `urlparse` / `_replace(query="",
fragment="")` / `urlunparse` keeps everything up to the first `?` or `#`
and drops the rest (query = text after the first `?` outside a fragment,
fragment = text after the first `#`; scheme, netloc, path and params are
reassembled unchanged for the lower-case-scheme links eBay produces). -/
def normalize_ebay_url (link : String) : String :=
  String.mk (link.toList.takeWhile (fun c => !(c == '?' || c == '#')))

/-- A url tail consisting only of query and/or fragment components:
empty, or starting at a `?` (query) or `#` (fragment). -/
def isTransientTail (s : String) : Bool :=
  match s.toList with
  | [] => true
  | c :: _ => c == '?' || c == '#'

/-! ### Seen-set stores

Two levels of modelling:

* content level (for the load functions' behaviour on raw file content):
  the persisted file is `Option String` (`none` = the path does not exist);
  `load_ebay_seen` parses JSON via `parseJsonStringList` (an `.error`
  result embeds `json.load` raising `json.JSONDecodeError`), and
  `load_gumtree_seen` splits lines and strips each.
* store level (for the pipeline theorems): the eBay store is the
  `Finset String` that `save_ebay_seen`/`load_ebay_seen` round-trip
  (`json.dump` of a list of strings read back with `set(json.load(f))`),
  and the Gumtree store is the list of appended lines, each line being one
  `mark_gumtree_seen(url)` write (urls are assumed newline-free, as any
  url containing a newline would already corrupt the line format);
  `load_gumtree_store` is the `set(line.strip() for line in f)` read. -/

/-- String content of a JSON string literal, after its opening quote:
characters up to the closing quote, with `\"`, `\\` and `\/` escapes
(the only escapes `json.dump` produces for url text). -/
def parseJsonStr : List Char → Option (List Char × List Char)
  | [] => none
  | '"' :: rest => some ([], rest)
  | '\\' :: c :: rest =>
    if c = '"' ∨ c = '\\' ∨ c = '/' then
      match parseJsonStr rest with
      | some (s, r) => some (c :: s, r)
      | none => none
    else none
  | c :: rest =>
    match parseJsonStr rest with
    | some (s, r) => some (c :: s, r)
    | none => none

/-- JSON whitespace skipping. -/
def skipWs : List Char → List Char
  | c :: cs => if c = ' ' ∨ c = '\t' ∨ c = '\n' ∨ c = '\r' then skipWs cs else c :: cs
  | [] => []

/-- Comma-separated JSON string elements up to the closing `]` (with
nothing but whitespace after it); fuel decreases on each element. -/
def parseJsonElems : Nat → List Char → Option (List String)
  | 0, _ => none
  | fuel + 1, cs =>
    match cs with
    | '"' :: cs' =>
      match parseJsonStr cs' with
      | some (s, rest) =>
        match skipWs rest with
        | ',' :: rest' =>
          match parseJsonElems fuel (skipWs rest') with
          | some l => some (String.mk s :: l)
          | none => none
        | ']' :: rest' =>
          if skipWs rest' = [] then some [String.mk s] else none
        | _ => none
      | none => none
    | _ => none

/-- A JSON array of strings (the only shape `save_ebay_seen` writes);
`none` on anything malformed, embedding `json.load` raising. -/
def parseJsonStringList (s : String) : Option (List String) :=
  match skipWs s.toList with
  | '[' :: cs =>
    match skipWs cs with
    | ']' :: rest => if skipWs rest = [] then some [] else none
    | cs' => parseJsonElems (s.toList.length + 1) cs'
  | _ => none

/-- `load_ebay_seen()` on raw persisted content: a missing file yields the
empty set; content that parses yields its set of strings; malformed
content makes `json.load` raise (`.error`). -/
def load_ebay_seen (content : Option String) : Except Unit (Finset String) :=
  match content with
  | none => .ok ∅
  | some s =>
    match parseJsonStringList s with
    | some l => .ok l.toFinset
    | none => .error ()

/-- Split on `'\n'` (the accumulator holds the current line reversed). -/
def splitNlAux : List Char → List Char → List String
  | [], acc => [String.mk acc.reverse]
  | '\n' :: rest, acc => String.mk acc.reverse :: splitNlAux rest []
  | c :: rest, acc => splitNlAux rest (c :: acc)

/-- The lines of a file as Python iteration yields them, without their
trailing newlines (a final newline does not produce an extra empty line). -/
def linesOf (s : String) : List String :=
  let parts := splitNlAux s.toList []
  if parts.getLast? = some "" then parts.dropLast else parts

/-- `load_gumtree_seen()` on raw persisted content: a missing file yields
the empty set; otherwise `set(line.strip() for line in f)`.  Any content is
accepted; there is no failure path. -/
def load_gumtree_seen (content : Option String) : Finset String :=
  match content with
  | none => ∅
  | some s => ((linesOf s).map pyStrip).toFinset

/-- `load_gumtree_seen` at the store level (the store is the list of
appended url lines). -/
def load_gumtree_store (store : List String) : Finset String :=
  (store.map pyStrip).toFinset

/-! ### Source pipelines -/

/-- One parsed eBay search result (`.s-item` element): the
`a.s-item__link` href, the `.s-item__title` text and the
`.s-item__location` text, each absent when `select_one` found no tag. -/
structure EbayItem where
  linkTag : Option String
  titleTag : Option String
  locTag : Option String
deriving DecidableEq

/-- The loop body of `process_ebay`, over the parsed items.  `seen` is the
set loaded at the start of the run (the membership test reads it, never the
accumulator), `new_seen` starts as a copy of `seen` and receives every
processed identity; matches are returned in emission order. -/
def ebayRun (mode : String) (seen : Finset String) :
    Finset String → List EbayItem → List (String × String) × Finset String
  | new_seen, [] => ([], new_seen)
  | new_seen, item :: rest =>
    match item.linkTag, item.titleTag with
    | some href, some rawTitle =>
      let link := normalize_ebay_url href
      if link ∈ seen then ebayRun mode seen new_seen rest
      else
        let title := pyStrip rawTitle
        let location := (item.locTag.map pyStrip).getD "Unknown"
        let r := ebayRun mode seen (insert link new_seen) rest
        if is_match title (some "ebay") && is_nearby mode location then
          ((pyDrop title 11, link) :: r.1, r.2)
        else r
    | _, _ => ebayRun mode seen new_seen rest

/-- `process_ebay()` given the parsed items and the persisted seen-set:
returns the emitted `(title, link)` matches and the seen-set that
`save_ebay_seen` persists at the end of the run. -/
def process_ebay (mode : String) (items : List EbayItem) (seen : Finset String) :
    List (String × String) × Finset String :=
  ebayRun mode seen seen items

/-- One listing out of `parse_gumtree` (which only emits records with a
non-empty title and a `/p/`-link). -/
structure GumtreeItem where
  title : String
  link : String
deriving DecidableEq

/-- The loop body of `process_gumtree`: `seen` is loaded once before the
loop; each processed identity is appended to the store immediately
(`mark_gumtree_seen`). -/
def gumtreeRun (seen : Finset String) :
    List String → List GumtreeItem → List (String × String) × List String
  | store, [] => ([], store)
  | store, item :: rest =>
    if item.link ∈ seen then gumtreeRun seen store rest
    else
      let r := gumtreeRun seen (store ++ [item.link]) rest
      if is_match item.title (some "gumtree") then
        ((item.title, item.link) :: r.1, r.2)
      else r

/-- `process_gumtree()` given the parsed items and the persisted append-log
store: returns the emitted matches and the store after the run. -/
def process_gumtree (items : List GumtreeItem) (store : List String) :
    List (String × String) × List String :=
  gumtreeRun (load_gumtree_store store) store items

/-! ### Run controller (`main`) -/

/-- `main()` with both sources enabled (`ENABLE_EBAY = ENABLE_GUMTREE =
True` in the source), after any cache clearing: fetching+parsing for each
source is an external collaborator embedded as an `Except`-valued thunk
(`.error` embeds `res.raise_for_status()` or any fetch/parse exception).
`main` calls `process_ebay()` then `process_gumtree()` with no exception
handling, so a raised error propagates and ends the run. -/
def main (mode : String)
    (fetchEbay : Unit → Except String (List EbayItem))
    (fetchGumtree : Unit → Except String (List GumtreeItem))
    (ebaySeen : Finset String) (gumtreeStore : List String) :
    Except String (List (String × String) × List (String × String)) :=
  match fetchEbay () with
  | .error e => .error e
  | .ok ebayItems =>
    let rE := process_ebay mode ebayItems ebaySeen
    match fetchGumtree () with
    | .error e => .error e
    | .ok gumtreeItems =>
      let rG := process_gumtree gumtreeItems gumtreeStore
      .ok (rE.1, rG.1)

/-! ### Helper lemmas -/

/-- `fracLt` agrees with the rational strict order (sanity check of the
cross-multiplication encoding). -/
theorem fracLt_iff (x y : Frac) (hx : 0 < x.den) (hy : 0 < y.den) :
    fracLt x y = true ↔ (x.num : ℚ) / (x.den : ℚ) < (y.num : ℚ) / (y.den : ℚ) := by
  rw [fracLt, decide_eq_true_eq,
    div_lt_div_iff₀ (by exact_mod_cast hx) (by exact_mod_cast hy)]
  exact_mod_cast Iff.rfl

/-- Lowering a threshold preserves a strict exceedance. -/
theorem fracLt_of_le (a b r : Frac) (hab : fracLe a b = true)
    (ha : 0 < a.den) (hb : 0 < b.den) (hbr : fracLt b r = true) :
    fracLt a r = true := by
  rw [fracLe, decide_eq_true_eq] at hab
  rw [fracLt, decide_eq_true_eq] at hbr
  rw [fracLt, decide_eq_true_eq]
  nlinarith [Nat.mul_le_mul_right r.den hab, Nat.mul_le_mul_right a.den hbr]

/-- `is_matchWith` as one boolean formula (case analysis on the source's
two-branch structure). -/
theorem is_matchWith_eq (e g : Frac) (title : String) (w : Option String) :
    is_matchWith e g title w =
      ((KNOWN_BIKES.any fun known =>
          fracLt (if w = some "ebay" then e else g)
            (ratio (pyLower title) (pyLower known)))
        || (decide (w = some "gumtree")
            && SEARCH_KEYWORDS.any fun keyword =>
                 strContains (pyLower keyword) (pyLower title))) := by
  rw [is_matchWith]
  cases h : (KNOWN_BIKES.any fun known =>
      fracLt (if w = some "ebay" then e else g)
        (ratio (pyLower title) (pyLower known))) with
  | true => rw [if_pos rfl, Bool.true_or]
  | false =>
    rw [if_neg Bool.false_ne_true, Bool.false_or]
    by_cases h2 : w = some "gumtree"
    · rw [if_pos h2, decide_eq_true h2, Bool.true_and]
    · rw [if_neg h2, decide_eq_false h2, Bool.false_and]

/-- String concatenation concatenates the character lists. -/
theorem string_toList_append (a b : String) : (a ++ b).toList = a.toList ++ b.toList := by
  cases a; cases b; rfl

/-- `takeWhile` over an append whose left part satisfies the predicate
everywhere and whose right part is empty or starts with a failing
character returns exactly the left part. -/
theorem takeWhile_append_of_all {p : Char → Bool} (l r : List Char)
    (hl : ∀ c ∈ l, p c = true)
    (hr : r = [] ∨ ∃ c rs, r = c :: rs ∧ p c = false) :
    (l ++ r).takeWhile p = l := by
  induction l with
  | nil =>
    rcases hr with rfl | ⟨c, rs, rfl, hc⟩
    · rfl
    · simp [List.takeWhile_cons, hc]
  | cons a l ih =>
    have ha := hl a (List.mem_cons_self _ _)
    simp only [List.cons_append, List.takeWhile_cons, ha, if_true]
    rw [ih fun c hc => hl c (List.mem_cons_of_mem _ hc)]

/-- The accumulator only grows along an eBay run. -/
theorem ebayRun_sub (mode : String) (seen : Finset String) (items : List EbayItem) :
    ∀ ns : Finset String, ns ⊆ (ebayRun mode seen ns items).2 := by
  induction items with
  | nil => intro ns; simp [ebayRun]
  | cons it rest ih =>
    intro ns
    obtain ⟨lt, tt, loc⟩ := it
    match lt, tt with
    | none, tt => simp only [ebayRun]; exact ih ns
    | some href, none => simp only [ebayRun]; exact ih ns
    | some href, some rt =>
      simp only [ebayRun]
      by_cases hmem : normalize_ebay_url href ∈ seen
      · rw [if_pos hmem]; exact ih ns
      · rw [if_neg hmem]
        by_cases hm : (is_match (pyStrip rt) (some "ebay")
            && is_nearby mode ((Option.map pyStrip loc).getD "Unknown")) = true
        · rw [if_pos hm]
          exact (Finset.subset_insert _ ns).trans (ih _)
        · rw [if_neg hm]
          exact (Finset.subset_insert _ ns).trans (ih _)

/-- An identity in the loaded seen-set is never among an eBay run's
emitted matches. -/
theorem ebayRun_seen_not_emitted (mode : String) (seen : Finset String)
    (items : List EbayItem) :
    ∀ (ns : Finset String) (l t : String), l ∈ seen →
      (t, l) ∉ (ebayRun mode seen ns items).1 := by
  induction items with
  | nil => intro ns l t _; simp [ebayRun]
  | cons it rest ih =>
    intro ns l t hl
    obtain ⟨lt, tt, loc⟩ := it
    match lt, tt with
    | none, tt => simp only [ebayRun]; exact ih ns l t hl
    | some href, none => simp only [ebayRun]; exact ih ns l t hl
    | some href, some rt =>
      simp only [ebayRun]
      by_cases hmem : normalize_ebay_url href ∈ seen
      · rw [if_pos hmem]; exact ih ns l t hl
      · rw [if_neg hmem]
        by_cases hm : (is_match (pyStrip rt) (some "ebay")
            && is_nearby mode ((Option.map pyStrip loc).getD "Unknown")) = true
        · rw [if_pos hm]
          intro hmem'
          rcases List.mem_cons.mp hmem' with heq | htail
          · have : l = normalize_ebay_url href := congrArg Prod.snd heq
            exact hmem (this ▸ hl)
          · exact ih _ l t hl htail
        · rw [if_neg hm]; exact ih _ l t hl

/-- Every well-formed item's normalized link is in the saved seen-set
after an eBay run (whether it was skipped as already seen or processed). -/
theorem ebayRun_recorded (mode : String) (seen : Finset String)
    (items : List EbayItem) :
    ∀ ns : Finset String, seen ⊆ ns → ∀ it ∈ items, ∀ href rt,
      it.linkTag = some href → it.titleTag = some rt →
      normalize_ebay_url href ∈ (ebayRun mode seen ns items).2 := by
  induction items with
  | nil => intro ns _ it hit; exact absurd hit (List.not_mem_nil it)
  | cons it0 rest ih =>
    intro ns hsub it hit href rt hl ht
    rcases List.mem_cons.mp hit with rfl | hit'
    · simp only [ebayRun, hl, ht]
      by_cases hmem : normalize_ebay_url href ∈ seen
      · rw [if_pos hmem]
        exact ebayRun_sub mode seen rest ns (hsub hmem)
      · rw [if_neg hmem]
        have hins : normalize_ebay_url href ∈
            (ebayRun mode seen (insert (normalize_ebay_url href) ns) rest).2 :=
          ebayRun_sub mode seen rest _ (Finset.mem_insert_self _ ns)
        by_cases hm : (is_match (pyStrip rt) (some "ebay")
            && is_nearby mode ((Option.map pyStrip it.locTag).getD "Unknown")) = true
        · rw [if_pos hm]; exact hins
        · rw [if_neg hm]; exact hins
    · obtain ⟨lt0, tt0, loc0⟩ := it0
      match lt0, tt0 with
      | none, tt0 =>
        simp only [ebayRun]
        exact ih ns hsub it hit' href rt hl ht
      | some href0, none =>
        simp only [ebayRun]
        exact ih ns hsub it hit' href rt hl ht
      | some href0, some rt0 =>
        simp only [ebayRun]
        by_cases hmem : normalize_ebay_url href0 ∈ seen
        · rw [if_pos hmem]; exact ih ns hsub it hit' href rt hl ht
        · rw [if_neg hmem]
          by_cases hm : (is_match (pyStrip rt0) (some "ebay")
              && is_nearby mode ((Option.map pyStrip loc0).getD "Unknown")) = true
          · rw [if_pos hm]
            exact ih _ (hsub.trans (Finset.subset_insert _ ns)) it hit' href rt hl ht
          · rw [if_neg hm]
            exact ih _ (hsub.trans (Finset.subset_insert _ ns)) it hit' href rt hl ht

/-- If every well-formed input item's normalized link is already in the
loaded seen-set, an eBay run emits nothing. -/
theorem ebayRun_all_seen (mode : String) (seen : Finset String)
    (items : List EbayItem) :
    ∀ ns : Finset String,
      (∀ it ∈ items, ∀ href rt, it.linkTag = some href → it.titleTag = some rt →
        normalize_ebay_url href ∈ seen) →
      (ebayRun mode seen ns items).1 = [] := by
  induction items with
  | nil => intro ns _; simp [ebayRun]
  | cons it0 rest ih =>
    intro ns h
    obtain ⟨lt0, tt0, loc0⟩ := it0
    match lt0, tt0 with
    | none, tt0 =>
      simp only [ebayRun]
      exact ih ns fun it hit => h it (List.mem_cons_of_mem _ hit)
    | some href0, none =>
      simp only [ebayRun]
      exact ih ns fun it hit => h it (List.mem_cons_of_mem _ hit)
    | some href0, some rt0 =>
      have hmem : normalize_ebay_url href0 ∈ seen :=
        h _ (List.mem_cons_self _ _) href0 rt0 rfl rfl
      simp only [ebayRun]
      rw [if_pos hmem]
      exact ih ns fun it hit => h it (List.mem_cons_of_mem _ hit)

/-- Removing a malformed item (missing link tag or title tag) from the
input leaves an eBay run unchanged. -/
theorem ebayRun_drop_malformed (mode : String) (seen : Finset String)
    (bad : EbayItem) (hbad : bad.linkTag = none ∨ bad.titleTag = none)
    (post : List EbayItem) :
    ∀ (pre : List EbayItem) (ns : Finset String),
      ebayRun mode seen ns (pre ++ bad :: post) = ebayRun mode seen ns (pre ++ post) := by
  intro pre
  induction pre with
  | nil =>
    intro ns
    obtain ⟨lt, tt, loc⟩ := bad
    rcases hbad with h | h
    · obtain rfl : lt = none := h
      simp [ebayRun]
    · obtain rfl : tt = none := h
      cases lt <;> simp [ebayRun]
  | cons it pre ih =>
    intro ns
    obtain ⟨lt, tt, loc⟩ := it
    match lt, tt with
    | none, tt => simp only [List.cons_append, ebayRun]; exact ih ns
    | some href, none => simp only [List.cons_append, ebayRun]; exact ih ns
    | some href, some rt =>
      simp only [List.cons_append, ebayRun, List.append_eq]
      by_cases hmem : normalize_ebay_url href ∈ seen
      · simp only [if_pos hmem]; exact ih ns
      · simp only [if_neg hmem]
        rw [ih (insert (normalize_ebay_url href) ns)]

/-- A Gumtree run only appends to the store. -/
theorem gumtreeRun_store_prefix (seen : Finset String) (items : List GumtreeItem) :
    ∀ store : List String, ∃ extra,
      (gumtreeRun seen store items).2 = store ++ extra := by
  induction items with
  | nil => intro store; exact ⟨[], by simp [gumtreeRun]⟩
  | cons it rest ih =>
    intro store
    simp only [gumtreeRun]
    by_cases hmem : it.link ∈ seen
    · rw [if_pos hmem]; exact ih store
    · rw [if_neg hmem]
      obtain ⟨extra, hex⟩ := ih (store ++ [it.link])
      by_cases hm : is_match it.title (some "gumtree") = true
      · rw [if_pos hm]
        exact ⟨it.link :: extra, by rw [hex]; simp⟩
      · rw [if_neg hm]
        exact ⟨it.link :: extra, by rw [hex]; simp⟩

/-- An identity in the loaded seen-set is never among a Gumtree run's
emitted matches. -/
theorem gumtreeRun_seen_not_emitted (seen : Finset String) (items : List GumtreeItem) :
    ∀ (store : List String) (l t : String), l ∈ seen →
      (t, l) ∉ (gumtreeRun seen store items).1 := by
  induction items with
  | nil => intro store l t _; simp [gumtreeRun]
  | cons it rest ih =>
    intro store l t hl
    simp only [gumtreeRun]
    by_cases hmem : it.link ∈ seen
    · rw [if_pos hmem]; exact ih store l t hl
    · rw [if_neg hmem]
      by_cases hm : is_match it.title (some "gumtree") = true
      · rw [if_pos hm]
        intro hmem'
        rcases List.mem_cons.mp hmem' with heq | htail
        · have : l = it.link := congrArg Prod.snd heq
          exact hmem (this ▸ hl)
        · exact ih _ l t hl htail
      · rw [if_neg hm]; exact ih _ l t hl

/-- After a Gumtree run, every input item's link is either in the loaded
seen-set or appended to the store. -/
theorem gumtreeRun_recorded (seen : Finset String) (items : List GumtreeItem) :
    ∀ store : List String, ∀ it ∈ items,
      it.link ∈ seen ∨ it.link ∈ (gumtreeRun seen store items).2 := by
  induction items with
  | nil => intro store it hit; exact absurd hit (List.not_mem_nil it)
  | cons it0 rest ih =>
    intro store it hit
    rcases List.mem_cons.mp hit with rfl | hit'
    · by_cases hmem : it.link ∈ seen
      · exact Or.inl hmem
      · right
        simp only [gumtreeRun]
        rw [if_neg hmem]
        obtain ⟨extra, hex⟩ := gumtreeRun_store_prefix seen rest (store ++ [it.link])
        by_cases hm : is_match it.title (some "gumtree") = true
        · rw [if_pos hm]
          rw [hex]; simp
        · rw [if_neg hm]
          rw [hex]; simp
    · simp only [gumtreeRun]
      by_cases hmem : it0.link ∈ seen
      · rw [if_pos hmem]; exact ih store it hit'
      · rw [if_neg hmem]
        by_cases hm : is_match it0.title (some "gumtree") = true
        · rw [if_pos hm]; exact ih _ it hit'
        · rw [if_neg hm]; exact ih _ it hit'

/-- If every input item's link is already in the loaded seen-set, a
Gumtree run emits nothing. -/
theorem gumtreeRun_all_seen (seen : Finset String) (items : List GumtreeItem) :
    ∀ store : List String, (∀ it ∈ items, it.link ∈ seen) →
      (gumtreeRun seen store items).1 = [] := by
  induction items with
  | nil => intro store _; simp [gumtreeRun]
  | cons it0 rest ih =>
    intro store h
    have hmem : it0.link ∈ seen := h it0 (List.mem_cons_self _ _)
    simp only [gumtreeRun]
    rw [if_pos hmem]
    exact ih store fun it hit => h it (List.mem_cons_of_mem _ hit)

/-- Growing the underlying line list only grows the loaded Gumtree
seen-set. -/
theorem load_gumtree_store_mono (store extra : List String) :
    load_gumtree_store store ⊆ load_gumtree_store (store ++ extra) := by
  intro l hl
  simp only [load_gumtree_store, List.mem_toFinset, List.map_append, List.mem_append] at hl ⊢
  exact Or.inl hl

end BikeScraper

namespace BikeScraper

set_option maxRecDepth 1000000

/-! ### Claim theorems -/

/-- Claim C5: the location filter accepts everything (including
`"Unknown"`) in `anywhere` mode; in restricted (`edinburgh`) mode it
accepts exactly the locations whose case-insensitive text contains the
target-area name `"edinburgh"` as a substring, so `"Unknown"` is rejected
and `"Edinburgh, UK"` is accepted. -/
theorem c5_claim :
    (∀ location : String, is_nearby "anywhere" location = true)
    ∧ (∀ location : String,
        is_nearby "edinburgh" location = strContains "edinburgh" (pyLower location))
    ∧ is_nearby "edinburgh" "Unknown" = false
    ∧ is_nearby "edinburgh" "Edinburgh, UK" = true := by
  refine ⟨fun location => by simp [is_nearby], fun location => by simp [is_nearby],
    by decide, by decide⟩

/-- Claim C6: a title containing a configured keyword (case-insensitively)
whose similarity ratio against every known term does not exceed the
source's threshold matches exactly when the source is `"gumtree"` (the
keyword-eligible source) and no other. -/
theorem c6_claim (title : String) (website : Option String)
    (hsim : ∀ known ∈ KNOWN_BIKES,
      fracLe (ratio (pyLower title) (pyLower known))
        (if website = some "ebay" then EBAY_CUTOFF else GUMTREE_CUTOFF) = true)
    (hkw : (SEARCH_KEYWORDS.any fun keyword =>
      strContains (pyLower keyword) (pyLower title)) = true) :
    is_match title website = decide (website = some "gumtree") := by
  rw [is_match, is_matchWith_eq]
  have hany : (KNOWN_BIKES.any fun known =>
      fracLt (if website = some "ebay" then EBAY_CUTOFF else GUMTREE_CUTOFF)
        (ratio (pyLower title) (pyLower known))) = false := by
    rw [List.any_eq_false]
    intro known hk
    have h := hsim known hk
    rw [fracLe, decide_eq_true_eq] at h
    rw [fracLt]
    simp only [decide_eq_true_eq]
    omega
  rw [hany, hkw]
  by_cases h2 : website = some "gumtree" <;> simp [h2]

/-- Claim C6 witness: `"bikezzzzz"` contains the keyword `"bike"`, its
ratio against every known term is at most the eBay threshold `1/5`, and
with source `"ebay"` the matcher rejects it. -/
theorem c6_witness :
    is_match "bikezzzzz" (some "ebay") = decide ((some "ebay" : Option String) = some "gumtree") :=
  c6_claim "bikezzzzz" (some "ebay") (by decide) (by decide)

/-- Claim C7: with positive-denominator thresholds, lowering both
source thresholds can only turn a non-match into a match (equivalently,
raising them can only turn a match into a non-match), and the similarity
path qualifies a term exactly when its ratio strictly exceeds the
threshold selected for the source. -/
theorem c7_claim (e e' g g' : Frac) (title : String) (w : Option String)
    (he : fracLe e e' = true) (hg : fracLe g g' = true)
    (hde : 0 < e.den) (hde' : 0 < e'.den) (hdg : 0 < g.den) (hdg' : 0 < g'.den) :
    (is_matchWith e' g' title w = true → is_matchWith e g title w = true)
    ∧ (is_matchWith e g title w = true ↔
        (∃ known ∈ KNOWN_BIKES,
          fracLt (if w = some "ebay" then e else g)
            (ratio (pyLower title) (pyLower known)) = true)
        ∨ (w = some "gumtree"
            ∧ ∃ keyword ∈ SEARCH_KEYWORDS,
                strContains (pyLower keyword) (pyLower title) = true)) := by
  constructor
  · intro h
    rw [is_matchWith_eq] at h ⊢
    rw [Bool.or_eq_true] at h ⊢
    rcases h with h | h
    · left
      rw [List.any_eq_true] at h ⊢
      obtain ⟨known, hk, hlt⟩ := h
      refine ⟨known, hk, ?_⟩
      by_cases hw : w = some "ebay"
      · simp only [hw, if_pos] at hlt ⊢
        exact fracLt_of_le e e' _ he hde hde' hlt
      · simp only [hw, if_neg, ite_false] at hlt ⊢
        exact fracLt_of_le g g' _ hg hdg hdg' hlt
    · right; exact h
  · rw [is_matchWith_eq, Bool.or_eq_true, Bool.and_eq_true, List.any_eq_true,
      List.any_eq_true, decide_eq_true_eq]

/-- Claim C7 witness: `"Trek"` matches at eBay threshold `1/5`, hence also
at the lower threshold `1/10`. -/
theorem c7_witness : is_matchWith ⟨1, 10⟩ ⟨1, 20⟩ "Trek" (some "ebay") = true :=
  (c7_claim ⟨1, 10⟩ ⟨1, 5⟩ ⟨1, 20⟩ ⟨1, 20⟩ "Trek" (some "ebay")
    (by decide) (by decide) (by decide) (by decide) (by decide) (by decide)).1
    (by decide)

/-- Claim C1 (amended): `main` performs no per-source error isolation — a
fetch/parse failure in the eBay source propagates out of the run as the
raised error, whatever the Gumtree collaborator would have returned, so
the Gumtree pipeline's results are never produced. -/
theorem c1_claim (mode e : String)
    (fetchGumtree : Unit → Except String (List GumtreeItem))
    (ebaySeen : Finset String) (gumtreeStore : List String) :
    main mode (fun _ => .error e) fetchGumtree ebaySeen gumtreeStore = .error e := rfl

/-- Claim C1 counterexample: with the eBay fetch raising `"HTTPError"`
and a Gumtree source that would have fetched and matched a listing, the
whole run returns the raised error — the failure is not isolated and the
other configured source's matches are not reported. -/
theorem c1_counterexample :
    main "edinburgh" (fun _ => .error "HTTPError")
        (fun _ => .ok [⟨"Trek bike", "L"⟩]) ∅ [] = .error "HTTPError"
    ∧ (process_gumtree [⟨"Trek bike", "L"⟩] []).1 = [("Trek bike", "L")] :=
  ⟨rfl, by decide⟩

/-- Claim C2 (amended): an identity present in the persisted seen-set at
the start of a run is never emitted during that run, and a run only grows
the persisted seen-set — so an identity, once persisted, is never
re-emitted in any later run (of either source) unless the store is
cleared.  (Within one run, membership is tested against the snapshot
loaded at run start; the counterexample shows a same-run duplicate being
re-emitted after its identity was already appended to the store.) -/
theorem c2_claim (mode : String) (items : List EbayItem) (seen : Finset String)
    (gitems : List GumtreeItem) (store : List String) (l t : String) :
    (l ∈ seen → (t, l) ∉ (process_ebay mode items seen).1)
    ∧ seen ⊆ (process_ebay mode items seen).2
    ∧ (l ∈ load_gumtree_store store → (t, l) ∉ (process_gumtree gitems store).1)
    ∧ load_gumtree_store store ⊆ load_gumtree_store (process_gumtree gitems store).2 := by
  refine ⟨fun hl => ebayRun_seen_not_emitted mode seen items seen l t hl,
    ebayRun_sub mode seen items seen,
    fun hl => gumtreeRun_seen_not_emitted (load_gumtree_store store) gitems store l t hl,
    ?_⟩
  obtain ⟨extra, hex⟩ := gumtreeRun_store_prefix (load_gumtree_store store) gitems store
  rw [process_gumtree, hex]
  exact load_gumtree_store_mono store extra

/-- Claim C2 witness: an identity already in the loaded eBay seen-set is
not emitted by a run on that store. -/
theorem c2_witness : ("t", "x") ∉ (process_ebay "anywhere" [] ({"x"} : Finset String)).1 :=
  (c2_claim "anywhere" [] {"x"} [] [] "x" "t").1 (by decide)

/-- Claim C2 counterexample: a duplicated Gumtree listing is emitted
twice in one run — after the first occurrence its identity `"L"` was
already appended to the seen store (the run's final store is
`["L", "L"]`), yet the later occurrence in the same run's input is
emitted again, because the membership test reads the seen-set snapshot
loaded at run start. -/
theorem c2_counterexample :
    process_gumtree [⟨"Trek bike", "L"⟩, ⟨"Trek bike", "L"⟩] [] =
      ([("Trek bike", "L"), ("Trek bike", "L")], ["L", "L"]) := by decide

/-- Claim C3 (amended): running a pipeline twice on identical listings
with the seen-store persisting in between yields no matches on the second
run — unconditionally for the eBay (set-variant) pipeline, and for the
Gumtree (append-log) pipeline provided each listing identity is unchanged
by whitespace stripping (the store strips every persisted line on load,
so an identity with surrounding whitespace never matches its own stored
form — the counterexample). -/
theorem c3_claim (mode : String) (items : List EbayItem) (seen : Finset String)
    (gitems : List GumtreeItem) (store : List String)
    (hid : ∀ it ∈ gitems, pyStrip it.link = it.link) :
    (process_ebay mode items (process_ebay mode items seen).2).1 = []
    ∧ (process_gumtree gitems (process_gumtree gitems store).2).1 = [] := by
  simp only [process_ebay, process_gumtree]
  constructor
  · apply ebayRun_all_seen
    intro it hit href rt hl ht
    exact ebayRun_recorded mode seen items seen (Finset.Subset.refl seen) it hit href rt hl ht
  · apply gumtreeRun_all_seen
    intro it hit
    rcases gumtreeRun_recorded (load_gumtree_store store) gitems store it hit with h | h
    · obtain ⟨extra, hex⟩ := gumtreeRun_store_prefix (load_gumtree_store store) gitems store
      rw [hex]
      exact load_gumtree_store_mono store extra h
    · rw [load_gumtree_store, List.mem_toFinset]
      exact List.mem_map.mpr ⟨it.link, h, hid it hit⟩

/-- Claim C3 witness: a second run over the same eBay listing and the
same Gumtree listing (with trim-invariant identity `"L"`) emits
nothing. -/
theorem c3_witness :
    (process_ebay "anywhere" [⟨some "https://e/i?q", some "Trek bike", none⟩]
        (process_ebay "anywhere" [⟨some "https://e/i?q", some "Trek bike", none⟩] ∅).2).1 = []
    ∧ (process_gumtree [⟨"Trek bike", "L"⟩]
        (process_gumtree [⟨"Trek bike", "L"⟩] []).2).1 = [] :=
  c3_claim "anywhere" [⟨some "https://e/i?q", some "Trek bike", none⟩] ∅
    [⟨"Trek bike", "L"⟩] [] (by decide)

/-- Claim C3 counterexample: the Gumtree identity `"x "` (trailing
space) defeats idempotence — the first run appends the raw line `"x "`,
load strips it to `"x"`, so the identical second run emits the listing
again. -/
theorem c3_counterexample :
    (process_gumtree [⟨"Trek bike", "x "⟩]
        (process_gumtree [⟨"Trek bike", "x "⟩] []).2).1 = [("Trek bike", "x ")] := by
  decide

/-- Claim C4 (amended): a missing storage file loads as the empty set for
both variants; the append-log (Gumtree) variant accepts arbitrary content
(it just strips lines — truncation can never raise); but malformed
set-variant (eBay) content makes `json.load` raise rather than load as
empty. -/
theorem c4_claim :
    load_ebay_seen none = .ok ∅
    ∧ load_gumtree_seen none = ∅
    ∧ load_ebay_seen (some "not json") = .error ()
    ∧ ∀ content : String,
        load_gumtree_seen (some content) = ((linesOf content).map pyStrip).toFinset :=
  ⟨rfl, rfl, rfl, fun _ => rfl⟩

/-- Claim C4 counterexample: on the malformed persisted content
`"not json"` the eBay load raises (it does not return the empty set). -/
theorem c4_counterexample : load_ebay_seen (some "not json") ≠ .ok ∅ := by
  intro h
  rw [show load_ebay_seen (some "not json") = .error () from rfl] at h
  exact Except.noConfusion h

/-- Claim C8: a listing missing its link tag or its title tag is skipped
without error, without emission and without touching the seen-set — the
whole run result equals the run on the input without that listing. -/
theorem c8_claim (mode : String) (seen : Finset String) (pre post : List EbayItem)
    (bad : EbayItem) (hbad : bad.linkTag = none ∨ bad.titleTag = none) :
    process_ebay mode (pre ++ bad :: post) seen = process_ebay mode (pre ++ post) seen := by
  rw [process_ebay, process_ebay, ebayRun_drop_malformed mode seen bad hbad post pre seen]

/-- Claim C8 witness: a lone item with no link tag produces the same run
result as an empty input. -/
theorem c8_witness :
    process_ebay "anywhere" [⟨none, some "Trek bike", none⟩] ∅ =
      process_ebay "anywhere" [] ∅ :=
  c8_claim "anywhere" ∅ [] [] ⟨none, some "Trek bike", none⟩ (Or.inl rfl)

/-- Claim C9: two eBay links sharing everything before their query/
fragment part normalize to the same identity, and once one form's
identity is in the seen-set, a listing carrying the other form is skipped
(emits nothing). -/
theorem c9_claim (base s1 s2 : String)
    (hbase : (base.toList.all fun c => !(c == '?' || c == '#')) = true)
    (h1 : isTransientTail s1 = true) (h2 : isTransientTail s2 = true) :
    normalize_ebay_url (base ++ s1) = normalize_ebay_url (base ++ s2)
    ∧ ∀ (mode : String) (seen : Finset String) (rawTitle : String) (loc : Option String),
        normalize_ebay_url (base ++ s1) ∈ seen →
        (process_ebay mode [⟨some (base ++ s2), some rawTitle, loc⟩] seen).1 = [] := by
  have hnorm : ∀ s : String, isTransientTail s = true →
      normalize_ebay_url (base ++ s) = String.mk base.toList := by
    intro s hs
    rw [normalize_ebay_url, string_toList_append]
    apply congrArg
    apply takeWhile_append_of_all
    · intro c hc
      exact List.all_eq_true.mp hbase c hc
    · rcases hlist : s.toList with _ | ⟨c, rs⟩
      · exact Or.inl rfl
      · right
        refine ⟨c, rs, rfl, ?_⟩
        simp only [isTransientTail, hlist] at hs
        rw [hs]
        rfl
  refine ⟨(hnorm s1 h1).trans (hnorm s2 h2).symm, ?_⟩
  intro mode seen rawTitle loc hmem
  have he : normalize_ebay_url (base ++ s2) = normalize_ebay_url (base ++ s1) :=
    (hnorm s2 h2).trans (hnorm s1 h1).symm
  simp only [process_ebay, ebayRun]
  rw [he, if_pos hmem]

/-- Claim C9 witness: the spec's scenario — `"https://x/item?id=1&ref=abc"`
and `"https://x/item?id=1"` share the identity `"https://x/item"`, and with
it recorded as seen, re-submission under the other query string is
skipped. -/
theorem c9_witness :
    normalize_ebay_url ("https://x/item" ++ "?id=1&ref=abc") =
      normalize_ebay_url ("https://x/item" ++ "?id=1")
    ∧ (process_ebay "anywhere"
        [⟨some ("https://x/item" ++ "?id=1"), some "Trek bike", none⟩]
        {normalize_ebay_url ("https://x/item" ++ "?id=1&ref=abc")}).1 = [] := by
  have h := c9_claim "https://x/item" "?id=1&ref=abc" "?id=1"
    (by decide) (by decide) (by decide)
  exact ⟨h.1, h.2 "anywhere" _ "Trek bike" none (Finset.mem_singleton_self _)⟩

/-- Claim C10: for a fresh well-formed eBay listing the emitted matches
are decided on the full (whitespace-stripped) title, and only the emitted
title is trimmed — unconditionally, by dropping the first 11 characters,
which leaves the empty string whenever the title has 11 or fewer
characters. -/
theorem c10_claim (mode : String) (seen : Finset String) (href rawTitle : String)
    (loc : Option String) (hnew : normalize_ebay_url href ∉ seen) :
    (process_ebay mode [⟨some href, some rawTitle, loc⟩] seen).1 =
      (if (is_match (pyStrip rawTitle) (some "ebay")
          && is_nearby mode ((Option.map pyStrip loc).getD "Unknown")) = true then
        [(pyDrop (pyStrip rawTitle) 11, normalize_ebay_url href)]
      else [])
    ∧ ((pyStrip rawTitle).toList.length ≤ 11 → pyDrop (pyStrip rawTitle) 11 = "") := by
  constructor
  · simp only [process_ebay, ebayRun]
    rw [if_neg hnew]
    by_cases hm : (is_match (pyStrip rawTitle) (some "ebay")
        && is_nearby mode ((Option.map pyStrip loc).getD "Unknown")) = true
    · rw [if_pos hm, if_pos hm]
    · rw [if_neg hm, if_neg hm]
  · intro hlen
    rw [pyDrop, List.drop_eq_nil_of_le hlen]

/-- Claim C10 witness: the 9-character matched title `"Trek bike"`
(stripped from `" Trek bike "`) is emitted as the empty string. -/
theorem c10_witness :
    (process_ebay "anywhere" [⟨some "https://e/i?q", some " Trek bike ", none⟩] ∅).1 =
      (if (is_match (pyStrip " Trek bike ") (some "ebay")
          && is_nearby "anywhere" ((Option.map pyStrip (none : Option String)).getD "Unknown")) = true then
        [(pyDrop (pyStrip " Trek bike ") 11, normalize_ebay_url "https://e/i?q")]
      else [])
    ∧ ((pyStrip " Trek bike ").toList.length ≤ 11 →
        pyDrop (pyStrip " Trek bike ") 11 = "") :=
  c10_claim "anywhere" ∅ "https://e/i?q" " Trek bike " none (by decide)

end BikeScraper
